import Mathlib

/-!
Shallow embedding of `src/simscript/util.ts` (SimScript utility module).

JavaScript numbers are modelled as rationals (`ℚ`); real-valued library
functions (`Math.sqrt`, `Math.atan2`) are modelled over `ℝ`.  A possibly
missing (`undefined`) numeric field is an `Option ℚ`, with `none` for
`undefined`; where `undefined` participates in arithmetic the resulting
`NaN` is also modelled as `none`.  A thrown exception is the `Except.error`
branch (or a `some` error message paired with the state reached so far,
for the stateful `setOptions`), and `console.error` output is a log list.
-/

namespace SimScript

/-! ### assert (util.ts lines 9-14) -/

/-- `assert(condition, msg)`: if the condition is false, write `msg` to
`console.error` and throw `msg`; otherwise do nothing.  The first
component is the `console.error` log, the second the outcome. -/
def assert (condition : Bool) (msg : String) : List String × Except String Unit :=
  if condition then ([], Except.ok ()) else ([msg], Except.error msg)

/-! ### clamp (util.ts lines 125-129) -/

/-- `min != null && value < min` for an optional bound. -/
def ltMin (value : ℚ) : Option ℚ → Bool
  | some m => decide (value < m)
  | none => false

/-- `max != null && value > max` for an optional bound. -/
def gtMax (value : ℚ) : Option ℚ → Bool
  | some m => decide (m < value)
  | none => false

/-- `clamp(value, min, max)` from the source: a conditional chain that
returns `min` when the value is below a non-null lower bound, else `max`
when the value is above a non-null upper bound, else the value. -/
def clamp (value : ℚ) (mn mx : Option ℚ) : ℚ :=
  if ltMin value mn then mn.getD value
  else if gtMax value mx then mx.getD value
  else value

/-! ### Points (util.ts lines 134-175) -/

/-- `IPoint`: x and y coordinates, optional z (`none` = `undefined`). -/
structure IPoint where
  x : ℚ
  y : ℚ
  z : Option ℚ := none
deriving DecidableEq, Repr

/-- The z term of `Point.distance` exactly as the source computes it:
`p1.z || 0 - p2.z || 0` parses as `p1.z || ((0 - p2.z) || 0)`, so a truthy
`p1.z` wins outright, and otherwise the inner `(0 - p2.z) || 0` is used
(`0 - undefined` is `NaN`, and `NaN || 0` is `0`). -/
def dzCode (p1 p2 : IPoint) : ℚ :=
  match p1.z with
  | some a => if a ≠ 0 then a else -(p2.z.getD 0)
  | none => -(p2.z.getD 0)

/-- The radicand `dx*dx + dy*dy + dz*dz` of `Point.distance`, with `dz`
computed as in the source (`dzCode`). -/
def distanceSq (p1 p2 : IPoint) : ℚ :=
  let dx := p1.x - p2.x
  let dy := p1.y - p2.y
  let dz := dzCode p1 p2
  dx * dx + dy * dy + dz * dz

/-- `Point.distance(p1, p2)` from the source: `Math.sqrt` of `distanceSq`. -/
noncomputable def distance (p1 p2 : IPoint) : ℝ :=
  Real.sqrt (distanceSq p1 p2)

/-- The radicand of the Euclidean distance as the specification states it:
the z term is `(p1.z||0) - (p2.z||0)`. -/
def distanceSpecSq (p1 p2 : IPoint) : ℚ :=
  let dx := p1.x - p2.x
  let dy := p1.y - p2.y
  let dz := p1.z.getD 0 - p2.z.getD 0
  dx * dx + dy * dy + dz * dz

/-- Euclidean distance as the specification states it. -/
noncomputable def distanceSpec (p1 p2 : IPoint) : ℝ :=
  Real.sqrt (distanceSpecSq p1 p2)

/-- Linear interpolation of the optional z coordinates: when either is
`undefined` the source computes with `NaN`, modelled as `none`. -/
def zinterp (z1 z2 : Option ℚ) (pct : ℚ) : Option ℚ :=
  match z1, z2 with
  | some a, some b => some (a + (b - a) * pct)
  | _, _ => none

/-- `Point.interpolate(p1, p2, pct)` from the source: component-wise
`c1 + (c2 - c1) * pct`, including z. -/
def interpolate (p1 p2 : IPoint) (pct : ℚ) : IPoint :=
  ⟨p1.x + (p2.x - p1.x) * pct,
   p1.y + (p2.y - p1.y) * pct,
   zinterp p1.z p2.z pct⟩

/-- Modelled from the spec: `Math.atan2(y, x)` is not repository code; this
is the standard two-argument arctangent giving the angle of the vector
(x, y) in (-π, π]. -/
noncomputable def atan2 (y x : ℝ) : ℝ :=
  if 0 < x then Real.arctan (y / x)
  else if x < 0 ∧ 0 ≤ y then Real.arctan (y / x) + Real.pi
  else if x < 0 ∧ y < 0 then Real.arctan (y / x) - Real.pi
  else if x = 0 ∧ 0 < y then Real.pi / 2
  else if x = 0 ∧ y < 0 then -(Real.pi / 2)
  else 0

/-- `Point.angle(p1, p2, radians)` from the source: `atan2` of the
coordinate differences, returned unrounded when `radians` is true, and
converted to degrees and rounded (`Math.round` = round half toward +∞,
which agrees with Mathlib's `round`) otherwise. -/
noncomputable def angle (p1 p2 : IPoint) (radians : Bool) : ℝ :=
  let a := atan2 ((p2.y : ℝ) - (p1.y : ℝ)) ((p2.x : ℝ) - (p1.x : ℝ))
  if radians then a else ((round (a * 180 / Real.pi) : ℤ) : ℝ)

/-! ### setOptions (util.ts lines 91-102) -/

/-- A member of a target object: either a plain property holding a value,
or an `Event` slot.  The `Event` class lives in `src/simscript/event.ts`
(not part of this module); modelled from the spec, an event slot is "a
capability supporting handler registration", carried here as the list of
registered handlers, and `addEventListener` appends to it. -/
inductive Member (α : Type) where
  | prop (v : α)
  | event (handlers : List α)
deriving DecidableEq, Repr

/-- A target object: an association of member names to members.
`key in obj` is `(obj.lookup key).isSome`. -/
abbrev Obj (α : Type) := List (String × Member α)

/-- `obj[key] = m`: overwrite the member stored under `key`. -/
def setKey (obj : Obj α) (key : String) (m : Member α) : Obj α :=
  obj.map fun kv => if kv.1 = key then (key, m) else kv

/-- One iteration of the `setOptions` loop body for key `k` with supplied
value `v`: assert `k in obj` (throwing `Property k is not defined`
otherwise), then either register `v` as an event handler (when `obj[k]`
is an `Event` instance) or assign `v` to `obj[k]`.  Returns the object
state after the iteration, and the thrown message if the assert fired. -/
def applyOption (obj : Obj α) (k : String) (v : α) : Obj α × Option String :=
  match obj.lookup k with
  | none => (obj, some ("Property " ++ k ++ " is not defined"))
  | some (Member.event hs) => (setKey obj k (Member.event (hs ++ [v])), none)
  | some (Member.prop _) => (setKey obj k (Member.prop v), none)

/-- The `for (let key in options)` loop of `setOptions`: iterate the
key/value pairs in insertion order, mutating the object, and stop with the
thrown message at the first failing assert (the object keeps the
mutations already made, as in the source). -/
def setOptionsAux : Obj α → List (String × α) → Obj α × Option String
  | obj, [] => (obj, none)
  | obj, (k, v) :: rest =>
    match applyOption obj k v with
    | (obj', none) => setOptionsAux obj' rest
    | (obj', some e) => (obj', some e)

/-- `setOptions(obj, options)` from the source: `if (options)` skips the
loop entirely for a null/undefined argument (`none`). -/
def setOptions (obj : Obj α) (options : Option (List (String × α))) :
    Obj α × Option String :=
  match options with
  | none => (obj, none)
  | some opts => setOptionsAux obj opts

/-! ### getElement (util.ts lines 109-115) -/

/-- A JavaScript value passed to `getElement`: a selector string, an
`Element` (drawn from an abstract element type `ε`), `null` (as returned
by a failed query), or some other non-element value (e.g. a jQuery
object). -/
inductive JsVal (ε : Type) where
  | str (s : String)
  | element (e : ε)
  | nullVal
  | other
deriving DecidableEq, Repr

/-- A document, for the purpose of selector queries: its elements in
document order and the selector-match predicate. -/
structure Doc (ε : Type) where
  elems : List ε
  matchesSel : ε → String → Bool

/-- Modelled from the spec: `document.querySelector` is not repository
code; it returns the first element in document order matching the
selector, or null (`none`). -/
def querySelector (doc : Doc ε) (sel : String) : Option ε :=
  doc.elems.find? fun e => doc.matchesSel e sel

/-- `e instanceof Element`. -/
def isElement : JsVal ε → Bool
  | JsVal.element _ => true
  | _ => false

/-- `getElement(selector)` from the source: a string selector is resolved
by `document.querySelector`, anything else is taken as-is; then
`assert(e instanceof Element, 'Element not found:' + selector)`.  The
first component is the `console.error` log written by a failing assert. -/
def getElement (doc : Doc ε) (selector : JsVal ε) : List String × Except String ε :=
  let e : JsVal ε :=
    match selector with
    | JsVal.str s =>
      match querySelector doc s with
      | some el => JsVal.element el
      | none => JsVal.nullVal
    | v => v
  match e with
  | JsVal.element el => ([], Except.ok el)
  | _ => (["Element not found:"], Except.error "Element not found:")

/-! ### format / _getNumberFormat (util.ts lines 23-37) -/

/-- An `Intl.NumberFormat` instance as created by `_getNumberFormat`: the
options it was constructed with, plus a creation-order `id` so that
referential identity (which instance you got) is observable in the
model. -/
structure NumberFormat where
  id : ℕ
  useGrouping : Bool
  minimumFractionDigits : ℕ
  maximumFractionDigits : ℕ
deriving DecidableEq, Repr

/-- The module-level `_numberFormats` cache plus a counter supplying fresh
instance ids. -/
structure FormatCache where
  formats : List (ℕ × NumberFormat)
  nextId : ℕ
deriving DecidableEq, Repr

/-- The empty cache (`const _numberFormats: any = {}`). -/
def FormatCache.init : FormatCache := ⟨[], 0⟩

/-- `_getNumberFormat(decimals)` from the source: return the cached
formatter for `decimals` if present, otherwise create one with
`useGrouping: true` and minimum and maximum fraction digits both equal to
`decimals`, store it in the cache, and return it. -/
def getNumberFormat (c : FormatCache) (decimals : ℕ) : NumberFormat × FormatCache :=
  match c.formats.lookup decimals with
  | some nf => (nf, c)
  | none =>
    let nf : NumberFormat := ⟨c.nextId, true, decimals, decimals⟩
    (nf, ⟨(decimals, nf) :: c.formats, c.nextId + 1⟩)

/-- Modelled from the spec: `Intl.NumberFormat.format` is not repository
code; with `minimumFractionDigits = maximumFractionDigits = d` it renders
exactly `d` fraction digits, obtained by rounding `|value| * 10^d`.  This
is the list of those fraction digits, most significant first. -/
def renderedFractionDigits (nf : NumberFormat) (value : ℚ) : List ℕ :=
  let d := nf.maximumFractionDigits
  let n := (round (|value| * 10 ^ d) : ℤ).toNat % 10 ^ d
  (List.range d).map fun i => n / 10 ^ (d - 1 - i) % 10

/-- Modelled from the spec: the rendered string of
`Intl.NumberFormat.format`, integer part (with grouping left abstract as
its decimal digits), then `.` and the fraction digits when there are
any. -/
def renderNumber (nf : NumberFormat) (value : ℚ) : String :=
  let sign := if value < 0 ∧ round (|value| * 10 ^ nf.maximumFractionDigits) ≠ 0 then "-" else ""
  let intPart := toString ((round (|value| * 10 ^ nf.maximumFractionDigits) : ℤ).toNat / 10 ^ nf.maximumFractionDigits)
  let frac := renderedFractionDigits nf value
  sign ++ intPart ++ (if frac.isEmpty then "" else "." ++ String.join (frac.map toString))

/-- `format(value, decimals = 2)` from the source: look up (or lazily
create) the formatter for `decimals` and format the value with it.
Returns the string and the cache state after the call. -/
def format (c : FormatCache) (value : ℚ) (decimals : ℕ := 2) : String × FormatCache :=
  let r := getNumberFormat c decimals
  (renderNumber r.1 value, r.2)

/-! ## Helper lemmas -/

/-- A successful association-list lookup locates a pair of the list. -/
theorem lookup_eq_some_mem {α β : Type} [BEq α] [LawfulBEq α]
    (l : List (α × β)) (k : α) (b : β)
    (h : l.lookup k = some b) : (k, b) ∈ l := by
  induction l with
  | nil => simp [List.lookup] at h
  | cons hd tl ih =>
    obtain ⟨k0, b0⟩ := hd
    by_cases hk : k = k0
    · subst hk
      simp [List.lookup] at h
      subst h
      exact List.mem_cons_self _ _
    · simp [List.lookup, beq_eq_false_iff_ne.mpr hk] at h
      exact List.mem_cons_of_mem _ (ih h)

/-! ## Claims -/

/-- C7: `assert(condition, message)` raises a failure that propagates to
the caller if and only if the condition is false, reporting the message to
the error channel (`console.error`) first; when the condition is true it
returns normally with no side effects. -/
theorem assert_spec (c : Bool) (m : String) :
    ((assert c m).2 = Except.error m ↔ c = false) ∧
    (c = true → assert c m = ([], Except.ok ())) ∧
    (c = false → assert c m = ([m], Except.error m)) := by
  cases c <;> simp [assert]

/-- Witness for C7: `assert false "boom"` logs and throws `"boom"`. -/
theorem assert_spec_witness :
    assert false "boom" = (["boom"], Except.error "boom") :=
  (assert_spec false "boom").2.2 rfl

/-- C4: `clamp(value, min, max)` returns `min` when `min` is non-null and
the value is below it, otherwise `max` when `max` is non-null and the
value is above it, otherwise the value; and the four concrete cases
`clamp(5,0,10) = 5`, `clamp(-5,0,10) = 0`, `clamp(15,null,10) = 10`,
`clamp(5,null,null) = 5`. -/
theorem clamp_spec (v : ℚ) (mn mx : Option ℚ) :
    (∀ m, mn = some m → v < m → clamp v mn mx = m) ∧
    ((∀ m, mn = some m → ¬ v < m) →
      ∀ M, mx = some M → M < v → clamp v mn mx = M) ∧
    ((∀ m, mn = some m → ¬ v < m) → (∀ M, mx = some M → ¬ M < v) →
      clamp v mn mx = v) ∧
    clamp 5 (some 0) (some 10) = 5 ∧
    clamp (-5) (some 0) (some 10) = 0 ∧
    clamp 15 none (some 10) = 10 ∧
    clamp 5 none none = 5 := by
  refine ⟨?_, ?_, ?_, by decide, by decide, by decide, by decide⟩
  · rintro m rfl hlt
    simp [clamp, ltMin, hlt]
  · rintro hmin M rfl hgt
    cases mn with
    | none => simp [clamp, ltMin, gtMax, hgt]
    | some m => simp [clamp, ltMin, gtMax, hgt, hmin m rfl]
  · intro hmin hmax
    cases mn with
    | none =>
      cases mx with
      | none => simp [clamp, ltMin, gtMax]
      | some M => simp [clamp, ltMin, gtMax, hmax M rfl]
    | some m =>
      cases mx with
      | none => simp [clamp, ltMin, gtMax, hmin m rfl]
      | some M => simp [clamp, ltMin, gtMax, hmin m rfl, hmax M rfl]

/-- Witness for C4: at value 7 with bounds 0 and 10 neither branch fires
and the value is returned. -/
theorem clamp_spec_witness : clamp 7 (some 0) (some 10) = 7 :=
  (clamp_spec 7 (some 0) (some 10)).2.2.1
    (by intro m hm; cases hm; decide) (by intro M hM; cases hM; decide)

/-- C9: `setOptions(obj, options)` with a null/undefined options argument
(`none`) returns normally, without an error, and leaves the object
unchanged: the whole loop is skipped. -/
theorem setOptions_none {α : Type} (obj : Obj α) :
    setOptions obj none = (obj, none) := rfl

/-- C2: each iteration of `setOptions` asserts that the key is a member of
the object (throwing `Property <key> is not defined` otherwise, with the
object left as it was), registers the supplied value as an event handler
when the member is an `Event` instance, and assigns the value to the
member otherwise; in particular `setOptions(target, {missingProp: 1})`
throws when `missingProp` is not a member of the target. -/
theorem setOptions_spec {α : Type} (obj : Obj α) (k : String) (v : α)
    (rest : List (String × α)) :
    (obj.lookup k = none →
      setOptions obj (some ((k, v) :: rest)) =
        (obj, some ("Property " ++ k ++ " is not defined"))) ∧
    (∀ hs, obj.lookup k = some (Member.event hs) →
      setOptions obj (some ((k, v) :: rest)) =
        setOptions (setKey obj k (Member.event (hs ++ [v]))) (some rest)) ∧
    (∀ w, obj.lookup k = some (Member.prop w) →
      setOptions obj (some ((k, v) :: rest)) =
        setOptions (setKey obj k (Member.prop v)) (some rest)) ∧
    setOptions [("x", Member.prop v)] (some [("missingProp", v)]) =
      ([("x", Member.prop v)], some "Property missingProp is not defined") := by
  refine ⟨?_, ?_, ?_, rfl⟩
  · intro h
    simp [setOptions, setOptionsAux, applyOption, h]
  · intro hs h
    simp [setOptions, setOptionsAux, applyOption, h]
  · intro w h
    simp [setOptions, setOptionsAux, applyOption, h]

/-- Witness for C2: on a target with a property `x` and an event `click`,
a missing key throws, an event key registers a handler, and a property
key assigns. -/
theorem setOptions_spec_witness :
    setOptions [("x", Member.prop 1), ("click", Member.event [])]
        (some [("missingProp", (2 : ℕ))]) =
      ([("x", Member.prop 1), ("click", Member.event [])],
        some "Property missingProp is not defined") ∧
    setOptions [("x", Member.prop 1), ("click", Member.event [])]
        (some [("click", (7 : ℕ))]) =
      setOptions [("x", Member.prop 1), ("click", Member.event [7])] (some []) ∧
    setOptions [("x", Member.prop 1), ("click", Member.event [])]
        (some [("x", (5 : ℕ))]) =
      setOptions [("x", Member.prop 5), ("click", Member.event [])] (some []) := by
  refine ⟨(setOptions_spec _ "missingProp" 2 []).1 rfl, ?_, ?_⟩
  · have h := (setOptions_spec
      [("x", Member.prop 1), ("click", Member.event [])] "click" 7 []).2.1 [] rfl
    simpa [setKey] using h
  · have h := (setOptions_spec
      [("x", Member.prop 1), ("click", Member.event [])] "x" 5 []).2.2.1 1 rfl
    simpa [setKey] using h

/-- C10: `setOptions` is not atomic on failure — when the assertion fails
on key `k`, all options before `k` have already been applied to the
target (the state reached by running them), and that partially updated
state is what remains when the exception propagates. -/
theorem setOptions_not_atomic {α : Type} (obj obj' : Obj α)
    (pre : List (String × α)) (k : String) (v : α) (rest : List (String × α))
    (hpre : setOptionsAux obj pre = (obj', none))
    (hk : obj'.lookup k = none) :
    setOptions obj (some (pre ++ (k, v) :: rest)) =
      (obj', some ("Property " ++ k ++ " is not defined")) := by
  simp only [setOptions]
  induction pre generalizing obj with
  | nil =>
    simp only [setOptionsAux] at hpre
    cases hpre
    simp [setOptionsAux, applyOption, hk]
  | cons hd tl ih =>
    obtain ⟨k0, v0⟩ := hd
    rcases hap : applyOption obj k0 v0 with ⟨o1, e⟩
    cases e with
    | none =>
      simp only [setOptionsAux, hap] at hpre
      simp only [List.cons_append, setOptionsAux, hap]
      exact ih o1 hpre
    | some msg =>
      simp only [setOptionsAux, hap] at hpre
      cases hpre

/-- Witness for C10: on a target with properties `a` and `b`, applying
`{a: 1, c: 2, b: 3}` assigns `a := 1`, then throws on the missing key `c`,
leaving `a`'s new value in place and `b` untouched. -/
theorem setOptions_not_atomic_witness :
    setOptions [("a", Member.prop 0), ("b", Member.prop 0)]
        (some [("a", (1 : ℕ)), ("c", 2), ("b", 3)]) =
      ([("a", Member.prop 1), ("b", Member.prop 0)],
        some "Property c is not defined") :=
  setOptions_not_atomic [("a", Member.prop 0), ("b", Member.prop 0)]
    [("a", Member.prop 1), ("b", Member.prop 0)]
    [("a", (1 : ℕ))] "c" 2 [("b", 3)] rfl rfl

/-- The `_numberFormats` cache only ever holds, under key `d`, formatters
configured with minimum and maximum fraction digits `d`. -/
def CacheInv (c : FormatCache) : Prop :=
  ∀ p ∈ c.formats,
    (p.2).minimumFractionDigits = p.1 ∧ (p.2).maximumFractionDigits = p.1

/-- C3: for every decimal count `d`, repeated `format`/`_getNumberFormat`
calls with `decimals = d` use one and the same lazily created cached
formatter (a second lookup returns the identical instance and leaves the
cache unchanged; a cached instance is returned without creating another;
entries are never evicted), and every result renders exactly `d`
fraction digits. -/
theorem format_cache_spec (c : FormatCache) (d : ℕ) (hinv : CacheInv c) :
    getNumberFormat (getNumberFormat c d).2 d = getNumberFormat c d ∧
    (∀ nf, c.formats.lookup d = some nf → getNumberFormat c d = (nf, c)) ∧
    (∀ p ∈ c.formats, p ∈ (getNumberFormat c d).2.formats) ∧
    CacheInv (getNumberFormat c d).2 ∧
    (getNumberFormat c d).1.minimumFractionDigits = d ∧
    (getNumberFormat c d).1.maximumFractionDigits = d ∧
    (∀ v, (renderedFractionDigits (getNumberFormat c d).1 v).length = d) ∧
    (∀ v, format c v d =
      (renderNumber (getNumberFormat c d).1 v, (getNumberFormat c d).2)) := by
  have hlen : ∀ nf v, (renderedFractionDigits nf v).length = nf.maximumFractionDigits := by
    intro nf v
    simp [renderedFractionDigits]
  rcases h : c.formats.lookup d with _ | nf
  · have hg : getNumberFormat c d =
        (⟨c.nextId, true, d, d⟩,
          ⟨(d, ⟨c.nextId, true, d, d⟩) :: c.formats, c.nextId + 1⟩) := by
      simp [getNumberFormat, h]
    refine ⟨?_, ?_, ?_, ?_, ?_, ?_, ?_, fun v => rfl⟩
    · rw [hg]
      simp [getNumberFormat, List.lookup]
    · intro nf hnf
      cases hnf
    · intro p hp
      rw [hg]
      exact List.mem_cons_of_mem _ hp
    · intro p hp
      rw [hg] at hp
      rcases List.mem_cons.mp hp with hp | hp
      · subst hp
        exact ⟨rfl, rfl⟩
      · exact hinv p hp
    · rw [hg]
    · rw [hg]
    · intro v
      rw [hlen, hg]
  · have hg : getNumberFormat c d = (nf, c) := by
      simp [getNumberFormat, h]
    have hm := hinv _ (lookup_eq_some_mem _ _ _ h)
    refine ⟨?_, ?_, ?_, ?_, ?_, ?_, fun v => ?_, fun v => rfl⟩
    · rw [hg]
      exact hg
    · intro nf' hnf'
      cases hnf'
      exact hg
    · intro p hp
      rw [hg]
      exact hp
    · rw [hg]
      exact hinv
    · rw [hg]
      exact hm.1
    · rw [hg]
      exact hm.2
    · rw [hlen, hg]
      exact hm.2

/-- Witness for C3: starting from the empty cache, asking twice for two
decimals reuses the instance and the result renders two fraction
digits. -/
theorem format_cache_spec_witness :
    getNumberFormat (getNumberFormat FormatCache.init 2).2 2 =
      getNumberFormat FormatCache.init 2 ∧
    (renderedFractionDigits (getNumberFormat FormatCache.init 2).1 (1234 + 1/2)).length = 2 := by
  have h := format_cache_spec FormatCache.init 2
    (fun p hp => absurd hp (List.not_mem_nil p))
  exact ⟨h.1, h.2.2.2.2.2.2.1 _⟩

/-- C1 (code bug): the claim states `Point.distance` returns the
Euclidean distance with z term `(p1.z||0) - (p2.z||0)`, but the source's
`p1.z || 0 - p2.z || 0` parses as `p1.z || ((0 - p2.z) || 0)`: a truthy
`p1.z` is used as the whole z difference.  At `p1 = p2 = (0,0,2)` the
code returns 2 where the Euclidean distance is 0. -/
theorem distance_z_bug :
    distance ⟨0, 0, some 2⟩ ⟨0, 0, some 2⟩ = 2 ∧
    distanceSpec ⟨0, 0, some 2⟩ ⟨0, 0, some 2⟩ = 0 ∧
    distanceSq ⟨0, 0, some 2⟩ ⟨0, 0, some 2⟩ = 4 ∧
    distanceSpecSq ⟨0, 0, some 2⟩ ⟨0, 0, some 2⟩ = 0 := by
  have h4 : distanceSq ⟨0, 0, some 2⟩ ⟨0, 0, some 2⟩ = 4 := by
    norm_num [distanceSq, dzCode]
  have h0 : distanceSpecSq ⟨0, 0, some 2⟩ ⟨0, 0, some 2⟩ = 0 := by
    norm_num [distanceSpecSq]
  refine ⟨?_, ?_, h4, h0⟩
  · rw [distance, h4]
    rw [show (((4 : ℚ) : ℝ)) = 2 ^ 2 by norm_num]
    exact Real.sqrt_sq (by norm_num)
  · rw [distanceSpec, h0]
    simp

/-- C5: `Point.angle(p1, p2, radians)` returns
`atan2(p2.y - p1.y, p2.x - p1.x)` unrounded when `radians` is true, and
that angle converted to degrees and rounded to the nearest integer by
default (a missing/falsy `radians` argument); in particular the angle
from (0,0) to (1,1) is 45 degrees, and π/4 in radians. -/
theorem angle_spec (p1 p2 : IPoint) :
    angle p1 p2 true = atan2 ((p2.y : ℝ) - p1.y) ((p2.x : ℝ) - p1.x) ∧
    angle p1 p2 false =
      ((round (atan2 ((p2.y : ℝ) - p1.y) ((p2.x : ℝ) - p1.x) * 180 / Real.pi) : ℤ) : ℝ) ∧
    angle ⟨0, 0, none⟩ ⟨1, 1, none⟩ false = 45 ∧
    angle ⟨0, 0, none⟩ ⟨1, 1, none⟩ true = Real.pi / 4 := by
  have hat : atan2 ((((1 : ℚ) : ℝ)) - ((0 : ℚ) : ℝ)) ((((1 : ℚ) : ℝ)) - ((0 : ℚ) : ℝ)) =
      Real.pi / 4 := by
    norm_num [atan2, Real.arctan_one]
  refine ⟨rfl, rfl, ?_, ?_⟩
  · show ((round (atan2 _ _ * 180 / Real.pi) : ℤ) : ℝ) = 45
    rw [hat]
    have h45 : Real.pi / 4 * 180 / Real.pi = 45 := by
      field_simp
      ring
    rw [h45]
    rw [show ((45 : ℝ)) = ((45 : ℤ) : ℝ) by norm_num]
    rw [round_intCast]
  · show atan2 _ _ = Real.pi / 4
    exact hat

/-- C6: `Point.interpolate(p1, p2, pct)`, for points with all coordinates
defined, is the component-wise linear interpolation `c1 + (c2 - c1)*pct`
(also in z), so `pct = 0` gives p1 and `pct = 1` gives p2; in particular
interpolating (0,0,0) to (10,0,0) at 1/2 gives (5,0,0). -/
theorem interpolate_spec (p1 p2 : IPoint) (pct z1 z2 : ℚ)
    (h1 : p1.z = some z1) (h2 : p2.z = some z2) :
    interpolate p1 p2 pct =
      ⟨p1.x + (p2.x - p1.x) * pct, p1.y + (p2.y - p1.y) * pct,
        some (z1 + (z2 - z1) * pct)⟩ ∧
    interpolate p1 p2 0 = p1 ∧
    interpolate p1 p2 1 = p2 ∧
    interpolate ⟨0, 0, some 0⟩ ⟨10, 0, some 0⟩ (1/2) = ⟨5, 0, some 0⟩ := by
  obtain ⟨x1, y1, pz1⟩ := p1
  obtain ⟨x2, y2, pz2⟩ := p2
  simp only at h1 h2
  subst h1
  subst h2
  refine ⟨?_, ?_, ?_, by norm_num [interpolate, zinterp]⟩ <;>
    simp [interpolate, zinterp, IPoint.mk.injEq]

/-- Witness for C6: interpolating (0,0,1) to (2,3,5) at 1/2. -/
theorem interpolate_spec_witness :
    interpolate ⟨0, 0, some 1⟩ ⟨2, 3, some 5⟩ (1/2) =
      ⟨0 + (2 - 0) * (1/2), 0 + (3 - 0) * (1/2), some (1 + (5 - 1) * (1/2))⟩ :=
  (interpolate_spec ⟨0, 0, some 1⟩ ⟨2, 3, some 5⟩ (1/2) 1 5 rfl rfl).1

/-- C8: `getElement(selector)` returns the first element matching a string
selector (resolved by `document.querySelector`) and returns a non-string
selector itself; it fails through the assert whenever the resolved value
is not an Element — a query with no match (null), a null argument, or any
other non-element value. -/
theorem getElement_spec {ε : Type} (doc : Doc ε) (s : String) (e el : ε) :
    (querySelector doc s = some e →
      getElement doc (JsVal.str s) = ([], Except.ok e)) ∧
    (querySelector doc s = none →
      getElement doc (JsVal.str s) =
        (["Element not found:"], Except.error "Element not found:")) ∧
    getElement doc (JsVal.element el) = ([], Except.ok el) ∧
    getElement doc (JsVal.other : JsVal ε) =
      (["Element not found:"], Except.error "Element not found:") ∧
    getElement doc (JsVal.nullVal : JsVal ε) =
      (["Element not found:"], Except.error "Element not found:") := by
  refine ⟨?_, ?_, rfl, rfl, rfl⟩ <;> intro h <;> simp [getElement, h]

/-- Witness for C8: a document whose elements 3 and 4 are matched only
for 4, queried with a string, yields the first match 4; with a
never-matching document the assert fires. -/
theorem getElement_spec_witness :
    getElement (⟨[3, 4], fun e _ => decide (4 ≤ e)⟩ : Doc ℕ) (JsVal.str "q") =
      ([], Except.ok 4) ∧
    getElement (⟨[3, 4], fun _ _ => false⟩ : Doc ℕ) (JsVal.str "q") =
      (["Element not found:"], Except.error "Element not found:") :=
  ⟨(getElement_spec (⟨[3, 4], fun e _ => decide (4 ≤ e)⟩ : Doc ℕ) "q" 4 0).1 rfl,
   (getElement_spec (⟨[3, 4], fun _ _ => false⟩ : Doc ℕ) "q" 0 0).2.1 rfl⟩

end SimScript
